import Mathlib

/-!
# storage-lock/go-storage: connection manager and row iterator

A shallow embedding of `dsn_connection_manager.go`, `connection_manager.go` and
`sql_rows_iterator.go`.

Go's mutable receivers become explicit state passing. Package `database/sql` is called by
the source and not defined by it, so its behaviour is a parameter (`SqlEnv`, `RowsDriver`),
and every call into it is recorded in a `World` so that "how often" and "with which
arguments" can be stated.
-/

set_option autoImplicit false

namespace Storage

/-! ## Go values -/

/-- A non-nil Go error value. A result of Go type `error` is an `Option GoError`,
`none` standing for `nil`. -/
structure GoError where
  msg : String
deriving DecidableEq, Repr

/-- A non-nil `*sql.DB`, identified by its address. A Go value of type `*sql.DB` is an
`Option DB`, `none` standing for the nil pointer. -/
structure DB where
  addr : Nat
deriving DecidableEq, Repr

/-- A `context.Context`, reduced to what `ctx.Err()` reports: `none` for a live context,
`some e` for one that was cancelled or whose deadline has elapsed. -/
structure Context where
  err : Option GoError
deriving DecidableEq, Repr

/-- The live context `context.Background()`. -/
def Context.background : Context := ⟨none⟩

/-- A context after its `cancel` function was called. -/
def Context.canceled : Context := ⟨some ⟨"context canceled"⟩⟩

/-- A context whose deadline has elapsed. -/
def Context.deadlineExceeded : Context := ⟨some ⟨"context deadline exceeded"⟩⟩

/-- Whether an error is one of the two cancellation errors of package `context`. -/
def GoError.isCancellation (e : GoError) : Bool :=
  e.msg == "context canceled" || e.msg == "context deadline exceeded"

/-- Whether an `error` result is a cancellation-kind error (`nil` is not). -/
def isCancellationResult : Option GoError → Bool
  | none => false
  | some e => e.isCancellation

/-! ## Package `database/sql`, as far as the connection manager uses it -/

/-- The behaviour of `database/sql` that the manager depends on. -/
structure SqlEnv where
  /-- Outcome of `sql.Open(driverName, dsn)`. The first argument is the number of
  `sql.Open` calls made before this one, so that a second attempt may end differently
  from the first. `sql.Open` returns either a handle and a nil error, or a nil handle and
  an error. -/
  sqlOpen : Nat → String → String → Except GoError DB
  /-- What `Close` returns on a handle that is still open. -/
  closeOpen : DB → Option GoError
  /-- What `Close` returns on a handle that was closed before (the already-closed
  condition; `database/sql` itself answers nil). -/
  closeClosed : DB → Option GoError

/-- Everything the manager has done to the outside, in order. -/
structure World where
  /-- The arguments of every `sql.Open` call. -/
  opens : List (String × String)
  /-- The receiver of every `Close` call on a handle. -/
  closeCalls : List DB
  /-- The handles whose resources were released: one entry for each `Close` that found its
  handle still open. -/
  released : List DB
deriving DecidableEq, Repr

/-- The world before anything happened. -/
def World.fresh : World := { opens := [], closeCalls := [], released := [] }

/-- The call `sql.Open(driverName, dsn)`. -/
def sqlOpen (env : SqlEnv) (w : World) (driverName dsn : String) : Except GoError DB × World :=
  (env.sqlOpen w.opens.length driverName dsn, { w with opens := w.opens ++ [(driverName, dsn)] })

/-- The call `db.Close()`: a handle is closed by the first `Close` it receives, and a later
`Close` releases nothing and reports the already-closed condition. -/
def DB.Close (env : SqlEnv) (w : World) (db : DB) : Option GoError × World :=
  if db ∈ w.released then
    (env.closeClosed db, { w with closeCalls := w.closeCalls ++ [db] })
  else
    (env.closeOpen db,
      { w with closeCalls := w.closeCalls ++ [db], released := w.released ++ [db] })

/-! ## `dsn_connection_manager.go` -/

/-- The struct `DsnConnectionManager`. Field `once` is the done flag of the `sync.Once`. -/
structure DsnConnectionManager where
  driverName : String
  DSN : String
  db : Option DB
  err : Option GoError
  once : Bool
deriving DecidableEq, Repr

/-- The constructor: the two strings are stored, every other field has its zero value. -/
def NewDsnConnectionManager (driverName dsn : String) : DsnConnectionManager :=
  { driverName := driverName, DSN := dsn, db := none, err := none, once := false }

/-- The constant `DSNConnectionManagerName`. -/
def DSNConnectionManagerName : String := "dsn-connection-manager"

/-- The method `Name`. -/
def DsnConnectionManager.Name (_x : DsnConnectionManager) : String :=
  DSNConnectionManagerName

/-- The function literal handed to `x.once.Do` in `Take`. -/
def DsnConnectionManager.takeInit (env : SqlEnv) (x : DsnConnectionManager) (w : World) :
    DsnConnectionManager × World :=
  match sqlOpen env w x.driverName x.DSN with
  | (.error err, w1) => ({ x with err := some err }, w1)
  | (.ok db, w1) => ({ x with db := some db }, w1)

/-- The call `x.once.Do(f)` of `Take`: `f` runs only if the flag is not set, and the flag is
set when `f` has returned. -/
def DsnConnectionManager.onceDo (env : SqlEnv) (x : DsnConnectionManager) (w : World) :
    DsnConnectionManager × World :=
  if x.once then (x, w)
  else
    let r := x.takeInit env w
    ({ r.1 with once := true }, r.2)

/-- The method `Take`: result pair, manager afterwards, world afterwards. -/
def DsnConnectionManager.Take (env : SqlEnv) (x : DsnConnectionManager) (w : World)
    (_ctx : Context) : (Option DB × Option GoError) × DsnConnectionManager × World :=
  let r := x.onceDo env w
  ((r.1.db, r.1.err), r.1, r.2)

/-- The method `Return`. -/
def DsnConnectionManager.Return (x : DsnConnectionManager) (w : World) (_ctx : Context)
    (_db : Option DB) : Option GoError × DsnConnectionManager × World :=
  (none, x, w)

/-- The method `Shutdown`. -/
def DsnConnectionManager.Shutdown (env : SqlEnv) (x : DsnConnectionManager) (w : World)
    (_ctx : Context) : Option GoError × DsnConnectionManager × World :=
  match x.err with
  | some e => (some e, x, w)
  | none =>
    match x.db with
    | some db =>
      let r := db.Close env w
      (r.1, x, r.2)
    | none => (none, x, w)

/-! ## Sequences of calls on one manager -/

/-- One method call on a manager, with its arguments. -/
inductive Call where
  | Take (ctx : Context)
  | Return (ctx : Context) (db : Option DB)
  | Shutdown (ctx : Context)
deriving DecidableEq, Repr

/-- What a call gave back. -/
inductive Outcome where
  | took (db : Option DB) (err : Option GoError)
  | returned (err : Option GoError)
  | shutDown (err : Option GoError)
deriving DecidableEq, Repr

/-- Perform one call. -/
def step (env : SqlEnv) (x : DsnConnectionManager) (w : World) :
    Call → Outcome × DsnConnectionManager × World
  | .Take ctx =>
    let r := x.Take env w ctx
    (.took r.1.1 r.1.2, r.2.1, r.2.2)
  | .Return ctx db =>
    let r := x.Return w ctx db
    (.returned r.1, r.2.1, r.2.2)
  | .Shutdown ctx =>
    let r := x.Shutdown env w ctx
    (.shutDown r.1, r.2.1, r.2.2)

/-- Perform the calls one after the other, collecting what each gave back. -/
def run (env : SqlEnv) : List Call → DsnConnectionManager → World →
    List Outcome × DsnConnectionManager × World
  | [], x, w => ([], x, w)
  | c :: cs, x, w =>
    let r := step env x w c
    let rest := run env cs r.2.1 r.2.2
    (r.1 :: rest.1, rest.2.1, rest.2.2)

/-- Whether a call is a `Take`. -/
def Call.isTake : Call → Bool
  | .Take _ => true
  | _ => false

/-- Whether a call is a `Shutdown`. -/
def Call.isShutdown : Call → Bool
  | .Shutdown _ => true
  | _ => false

/-- What every `Take` gives back once `sql.Open` has ended with `o`: the handle and a nil
error, or a nil handle and the error. -/
def takeResultOf : Except GoError DB → Outcome
  | .ok db => .took (some db) none
  | .error e => .took none (some e)

/-- An environment for examples: opening succeeds exactly for driver `"mysql"`, the handle's
address is the number of earlier opens, and closing never fails. -/
def SqlEnv.demo : SqlEnv where
  sqlOpen n driverName _ :=
    if driverName = "mysql" then .ok ⟨n⟩ else .error ⟨"sql: unknown driver " ++ driverName⟩
  closeOpen _ := none
  closeClosed _ := none

/-! ## Package `database/sql`, as far as the row iterator uses it -/

/-- The behaviour of the cursor behind a `*sql.Rows`, over any type `σ` of cursor states.
`L` is the type `LockInformation`, which the iterator file uses and does not declare. -/
structure RowsDriver (σ L : Type) where
  /-- The cursor's own advance, `rows.Next()`: what it reports, and the cursor afterwards. -/
  next : σ → Bool × σ
  /-- The cursor's `rows.Close()`: the error it returns, and the cursor afterwards. -/
  close : σ → Option GoError × σ
  /-- The cursor's `rows.Scan(&r)` for one destination `r` of type `*LockInformation`:
  from the destination before the call (`none` is a nil pointer), the destination after it
  and the error returned, and the cursor afterwards. -/
  scan : σ → Option L → (Option L × Option GoError) × σ
  /-- Whether the cursor, in this state, is closed. -/
  isClosed : σ → Bool

/-- The one law of the cursor that the iterator relies on: after `rows.Close()` the cursor
is closed, whatever state it was in and whatever error the call returned. -/
def RowsDriver.CloseCloses {σ L : Type} (drv : RowsDriver σ L) : Prop :=
  ∀ s : σ, drv.isClosed (drv.close s).2 = true

/-- A non-nil `*sql.Rows`: the cursor and the number of `Close` calls it has received. -/
structure SqlRows (σ : Type) where
  cursor : σ
  closeCalls : Nat
deriving DecidableEq, Repr

/-- Whether the cursor is closed: the state of the cursor itself, as its driver reports it.
The counter `closeCalls` takes no part in it. -/
def SqlRows.closed {σ L : Type} (drv : RowsDriver σ L) (rows : SqlRows σ) : Bool :=
  drv.isClosed rows.cursor

/-- The call `rows.Next()`. -/
def SqlRows.Next {σ L : Type} (drv : RowsDriver σ L) (rows : SqlRows σ) : Bool × SqlRows σ :=
  let r := drv.next rows.cursor
  (r.1, { rows with cursor := r.2 })

/-- The call `rows.Close()`. -/
def SqlRows.Close {σ L : Type} (drv : RowsDriver σ L) (rows : SqlRows σ) :
    Option GoError × SqlRows σ :=
  let r := drv.close rows.cursor
  (r.1, { cursor := r.2, closeCalls := rows.closeCalls + 1 })

/-- The call `rows.Scan(&r)`. -/
def SqlRows.Scan {σ L : Type} (drv : RowsDriver σ L) (rows : SqlRows σ) (dest : Option L) :
    (Option L × Option GoError) × SqlRows σ :=
  let r := drv.scan rows.cursor dest
  (r.1, { rows with cursor := r.2 })

/-! ## `sql_rows_iterator.go` -/

/-- The struct `SqlRowsIterator`. -/
structure SqlRowsIterator (σ : Type) where
  rows : SqlRows σ
deriving DecidableEq, Repr

/-- The constructor. -/
def NewSqlRowsIterator {σ : Type} (rows : SqlRows σ) : SqlRowsIterator σ :=
  { rows := rows }

/-- The method `Next`: the cursor is advanced, and closed when the advance reports false;
the error of that `Close` is dropped. -/
def SqlRowsIterator.Next {σ L : Type} (drv : RowsDriver σ L) (x : SqlRowsIterator σ) :
    Bool × SqlRowsIterator σ :=
  let r := x.rows.Next drv
  let hasNext := r.1
  if !hasNext then
    let c := r.2.Close drv
    (hasNext, { rows := c.2 })
  else
    (hasNext, { rows := r.2 })

/-- The method `Value`: `r` starts as a pointer to the zero value `LockInformation{}`
(`default`), `Scan` is given `&r`, its error is dropped and `r` is returned. -/
def SqlRowsIterator.Value {σ L : Type} [Inhabited L] (drv : RowsDriver σ L)
    (x : SqlRowsIterator σ) : Option L × SqlRowsIterator σ :=
  let r : Option L := some default
  let s := x.rows.Scan drv r
  (s.1.1, { rows := s.2 })

/-- The error `Scan` came back with inside `Value`, which `Value` assigns to the blank
identifier. -/
def SqlRowsIterator.valueScanError {σ L : Type} [Inhabited L] (drv : RowsDriver σ L)
    (x : SqlRowsIterator σ) : Option GoError :=
  (x.rows.Scan drv (some default)).1.2

/-- Call `Next` until it returns false, at most `fuel` times: the iterator as that last
`Next` left it, or `none` when all `fuel` calls returned true. -/
def driveUntilFalse {σ L : Type} (drv : RowsDriver σ L) :
    Nat → SqlRowsIterator σ → Option (SqlRowsIterator σ)
  | 0, _ => none
  | fuel + 1, x =>
    let r := x.Next drv
    if r.1 then driveUntilFalse drv fuel r.2 else some r.2

/-- Do `k` times: call `Next`, then `Value`. What each pair gave back, and the iterator
afterwards. -/
def nextValuePairs {σ L : Type} [Inhabited L] (drv : RowsDriver σ L) :
    Nat → SqlRowsIterator σ → List (Bool × Option L) × SqlRowsIterator σ
  | 0, x => ([], x)
  | k + 1, x =>
    let n := x.Next drv
    let v := n.2.Value drv
    let rest := nextValuePairs drv k v.2
    ((n.1, v.1) :: rest.1, rest.2)

/-! ## A result set held in memory -/

/-- A cursor over a result set of rows of type `R`: the rows not yet reached, the row the
cursor stands on, and whether it was closed. -/
structure ListCursor (R : Type) where
  pending : List R
  current : Option R
  isClosed : Bool
deriving DecidableEq, Repr

/-- A cursor placed before the first row of a result set. -/
def ListCursor.ofRows {R : Type} (rows : List R) : ListCursor R :=
  { pending := rows, current := none, isClosed := false }

/-- The driver of a `ListCursor`. `decode row dest` is the structural decoding of one row
into the destination: the destination afterwards and the decode error. Advancing moves to
the next pending row and reports false when there is none or the cursor is closed; scanning
with no current row fails and leaves the destination alone. -/
def listDriver {R L : Type} (decode : R → Option L → Option L × Option GoError) :
    RowsDriver (ListCursor R) L where
  next c :=
    if c.isClosed then (false, c)
    else
      match c.pending with
      | [] => (false, { c with current := none })
      | r :: rest => (true, { c with pending := rest, current := some r })
  close c := (none, { c with current := none, isClosed := true })
  scan c dest :=
    match c.current with
    | none => ((dest, some ⟨"sql: Scan called without calling Next"⟩), c)
    | some r => (decode r dest, c)
  isClosed c := c.isClosed

/-- A `driver.Value`, the content of one column of one row. -/
inductive DriverValue where
  | null
  | int (n : Int)
  | text (s : String)
deriving DecidableEq, Repr

/-- What `rows.Scan(&r)` does with the current row inside `Value`, as `database/sql`
performs it. `Value` hands `Scan` one destination, `&r`, whose type is `**LockInformation`.
`Scan` first compares the number of destinations with the number of columns and fails,
without touching the destination, when the row does not have exactly one column. For a
one-column row the conversion of that column into a pointer destination sets `r` to nil
when the column is NULL; otherwise it points `r` to a new zero-value record and converts
into that record, which `database/sql` can only do through a `Scan` method of
`*LockInformation` (`scanner`, absent for a plain struct) and otherwise fails as
unsupported. -/
def scanIntoRecordPointer {L : Type} [Inhabited L]
    (scanner : Option (DriverValue → L × Option GoError)) (row : List DriverValue)
    (dest : Option L) : Option L × Option GoError :=
  match row with
  | [v] =>
    match v with
    | .null => (none, none)
    | _ =>
      match scanner with
      | none => (some default, some ⟨"sql: Scan error on column index 0: unsupported Scan"⟩)
      | some f => (some (f v).1, (f v).2)
  | _ => (dest, some ⟨"sql: expected " ++ toString row.length
                        ++ " destination arguments in Scan, not 1"⟩)

/-- A decoder for examples, rows being numbers and records being numbers: row `0` does not
decode and leaves the destination alone, any other row decodes to itself. -/
def decodeDemo (row : Nat) (dest : Option Nat) : Option Nat × Option GoError :=
  if row = 0 then (dest, some ⟨"sql: Scan error on column index 0"⟩) else (some row, none)

/-- The states of a manager that are not half-way through initialization. Before the
`sync.Once` has fired there is neither a connection nor an error; after it has fired there
is exactly one of the two. -/
def DsnConnectionManager.Consistent (x : DsnConnectionManager) : Bool :=
  if x.once then x.db.isSome != x.err.isSome else x.db.isNone && x.err.isNone

/-! ## Helper lemmas on single calls -/

theorem take_of_once (env : SqlEnv) (x : DsnConnectionManager) (w : World) (ctx : Context)
    (h : x.once = true) : x.Take env w ctx = ((x.db, x.err), x, w) := by
  simp [DsnConnectionManager.Take, DsnConnectionManager.onceDo, h]

theorem step_return (env : SqlEnv) (x : DsnConnectionManager) (w : World) (ctx : Context)
    (c : Option DB) : step env x w (.Return ctx c) = (.returned none, x, w) := rfl

theorem run_nil (env : SqlEnv) (x : DsnConnectionManager) (w : World) :
    run env [] x w = ([], x, w) := rfl

theorem run_cons (env : SqlEnv) (c : Call) (cs : List Call) (x : DsnConnectionManager)
    (w : World) :
    run env (c :: cs) x w =
      ((step env x w c).1 :: (run env cs (step env x w c).2.1 (step env x w c).2.2).1,
        (run env cs (step env x w c).2.1 (step env x w c).2.2).2.1,
        (run env cs (step env x w c).2.1 (step env x w c).2.2).2.2) := rfl

theorem run_returns (env : SqlEnv) (rets : List (Context × Option DB))
    (x : DsnConnectionManager) (w : World) :
    run env (rets.map (fun a => Call.Return a.1 a.2)) x w =
      (rets.map (fun _ => Outcome.returned none), x, w) := by
  induction rets with
  | nil => rfl
  | cons a rest ih => simp [run_cons, step_return, ih]

/-! ## Claims about `Name`, `Return` and `Shutdown` -/

/-- C9: whatever driver name and DSN a manager was constructed with, and after any sequence
of `Take`, `Return` and `Shutdown` calls, `Name` returns the constant
`DSNConnectionManagerName`, which is not the empty string; indeed `Name` returns it on
every value of the struct. -/
theorem name_is_constant_and_nonempty (env : SqlEnv) (driverName dsn : String) (w : World)
    (calls : List Call) :
    (run env calls (NewDsnConnectionManager driverName dsn) w).2.1.Name
        = DSNConnectionManagerName
      ∧ (∀ x : DsnConnectionManager, x.Name = DSNConnectionManagerName)
      ∧ DSNConnectionManagerName = "dsn-connection-manager"
      ∧ DSNConnectionManagerName ≠ "" := by
  refine ⟨rfl, fun _ => rfl, rfl, ?_⟩
  decide

/-- C8: `Return` returns nil and leaves the manager and the world as they were, whatever
the state, the context and the connection argument, so it opens and closes nothing; after
any number of `Return` calls the manager and the world are unchanged and `Take` gives
exactly what it would have given without them. -/
theorem return_changes_nothing (env : SqlEnv) (x : DsnConnectionManager) (w : World)
    (ctx : Context) (c : Option DB) (rets : List (Context × Option DB)) (ctx2 : Context) :
    x.Return w ctx c = (none, x, w)
      ∧ (run env (rets.map (fun a => Call.Return a.1 a.2)) x w).2 = (x, w)
      ∧ (run env (rets.map (fun a => Call.Return a.1 a.2)) x w).2.1.Take env
            (run env (rets.map (fun a => Call.Return a.1 a.2)) x w).2.2 ctx2
          = x.Take env w ctx2 := by
  refine ⟨rfl, ?_, ?_⟩
  · rw [run_returns]
  · rw [run_returns]

/-- C2: `Shutdown` never opens a connection and never changes the manager. With no
connection and no cached error it returns nil and the world is untouched (so on a freshly
constructed manager); with a cached error `e` it returns `e` and the world is untouched;
otherwise, with a connection `c`, it calls `c.Close()` once and returns what that call
returned. -/
theorem shutdown_case_analysis (env : SqlEnv) (x : DsnConnectionManager) (w : World)
    (ctx : Context) :
    (x.Shutdown env w ctx).2.1 = x
      ∧ (x.Shutdown env w ctx).2.2.opens = w.opens
      ∧ (x.db = none → x.err = none → x.Shutdown env w ctx = (none, x, w))
      ∧ (∀ driverName dsn, (NewDsnConnectionManager driverName dsn).Shutdown env w ctx
            = (none, NewDsnConnectionManager driverName dsn, w))
      ∧ (∀ e, x.err = some e → x.Shutdown env w ctx = (some e, x, w))
      ∧ (∀ c, x.err = none → x.db = some c →
            x.Shutdown env w ctx = ((c.Close env w).1, x, (c.Close env w).2)
              ∧ (x.Shutdown env w ctx).2.2.closeCalls = w.closeCalls ++ [c]) := by
  refine ⟨?_, ?_, ?_, ?_, ?_, ?_⟩
  · unfold DsnConnectionManager.Shutdown
    cases x.err <;> cases x.db <;> rfl
  · unfold DsnConnectionManager.Shutdown
    cases x.err with
    | some e => rfl
    | none =>
      cases x.db with
      | none => rfl
      | some c =>
        simp only [DB.Close]
        split <;> rfl
  · intro hdb herr
    simp [DsnConnectionManager.Shutdown, hdb, herr]
  · intro driverName dsn
    rfl
  · intro e herr
    simp [DsnConnectionManager.Shutdown, herr]
  · intro c herr hdb
    constructor
    · simp [DsnConnectionManager.Shutdown, hdb, herr]
    · simp only [DsnConnectionManager.Shutdown, hdb, herr, DB.Close]
      split <;> rfl

/-- Witness for C2 at a manager that holds a connection and at one that holds an error. -/
theorem shutdown_case_analysis_witness :
    (({ driverName := "mysql", DSN := "dsn", db := some ⟨7⟩, err := none, once := true }
        : DsnConnectionManager).Shutdown SqlEnv.demo World.fresh Context.background).2.2.closeCalls
        = [⟨7⟩]
      ∧ ((NewDsnConnectionManager "mysql" "dsn").Shutdown SqlEnv.demo World.fresh
          Context.background).1 = none :=
  ⟨((shutdown_case_analysis SqlEnv.demo
      { driverName := "mysql", DSN := "dsn", db := some ⟨7⟩, err := none, once := true }
      World.fresh Context.background).2.2.2.2.2 ⟨7⟩ rfl rfl).2,
    congrArg Prod.fst ((shutdown_case_analysis SqlEnv.demo (NewDsnConnectionManager "mysql" "dsn")
      World.fresh Context.background).2.2.1 rfl rfl)⟩

/-! ## Claims about `Take` -/

theorem take_of_fresh (env : SqlEnv) (x : DsnConnectionManager) (w : World) (ctx : Context)
    (honce : x.once = false) (hdb : x.db = none) (herr : x.err = none) :
    (x.Take env w ctx).2.2 = { w with opens := w.opens ++ [(x.driverName, x.DSN)] }
      ∧ (x.Take env w ctx).2.1.once = true
      ∧ Outcome.took (x.Take env w ctx).2.1.db (x.Take env w ctx).2.1.err
          = takeResultOf (env.sqlOpen w.opens.length x.driverName x.DSN)
      ∧ Outcome.took (x.Take env w ctx).1.1 (x.Take env w ctx).1.2
          = takeResultOf (env.sqlOpen w.opens.length x.driverName x.DSN) := by
  simp only [DsnConnectionManager.Take, DsnConnectionManager.onceDo, honce,
    DsnConnectionManager.takeInit, sqlOpen]
  cases h : env.sqlOpen w.opens.length x.driverName x.DSN with
  | error e => simp [takeResultOf, hdb]
  | ok db => simp [takeResultOf, herr]

theorem run_settled (env : SqlEnv) (calls : List Call) (x : DsnConnectionManager) (w : World)
    (honce : x.once = true) (hcalls : ∀ c ∈ calls, c.isShutdown = false) :
    run env calls x w =
      (calls.map (fun c => if c.isTake then Outcome.took x.db x.err else Outcome.returned none),
        x, w) := by
  induction calls with
  | nil => rfl
  | cons c cs ih =>
    have hcs : ∀ c ∈ cs, c.isShutdown = false := fun c hc => hcalls c (List.mem_cons_of_mem _ hc)
    cases c with
    | Take ctx =>
      have hs : step env x w (.Take ctx) = (.took x.db x.err, x, w) := by
        simp [step, take_of_once env x w ctx honce]
      simp [run_cons, hs, ih hcs, Call.isTake]
    | Return ctx db =>
      simp [run_cons, step_return, ih hcs, Call.isTake]
    | Shutdown ctx =>
      have := hcalls (.Shutdown ctx) (List.mem_cons_self _ _)
      simp [Call.isShutdown] at this

theorem run_without_take (env : SqlEnv) (calls : List Call) (x : DsnConnectionManager)
    (w : World) (hcalls : ∀ c ∈ calls, c.isShutdown = false)
    (hno : ∀ c ∈ calls, c.isTake = false) :
    run env calls x w = (calls.map (fun _ => Outcome.returned none), x, w) := by
  induction calls with
  | nil => rfl
  | cons c cs ih =>
    have hcs : ∀ c ∈ cs, c.isShutdown = false := fun c hc => hcalls c (List.mem_cons_of_mem _ hc)
    have hno2 : ∀ c ∈ cs, c.isTake = false := fun c hc => hno c (List.mem_cons_of_mem _ hc)
    cases c with
    | Take ctx =>
      have := hno (.Take ctx) (List.mem_cons_self _ _)
      simp [Call.isTake] at this
    | Return ctx db =>
      simp [run_cons, step_return, ih hcs hno2]
    | Shutdown ctx =>
      have := hcalls (.Shutdown ctx) (List.mem_cons_self _ _)
      simp [Call.isShutdown] at this

theorem run_fresh_take (env : SqlEnv) (calls : List Call) (x : DsnConnectionManager)
    (w : World) (honce : x.once = false) (hdb : x.db = none) (herr : x.err = none)
    (hcalls : ∀ c ∈ calls, c.isShutdown = false) (htake : ∃ c ∈ calls, c.isTake = true) :
    (run env calls x w).2.2 = { w with opens := w.opens ++ [(x.driverName, x.DSN)] }
      ∧ (run env calls x w).1 = calls.map (fun c =>
          if c.isTake then takeResultOf (env.sqlOpen w.opens.length x.driverName x.DSN)
          else Outcome.returned none)
      ∧ (run env calls x w).2.1.once = true
      ∧ Outcome.took (run env calls x w).2.1.db (run env calls x w).2.1.err
          = takeResultOf (env.sqlOpen w.opens.length x.driverName x.DSN) := by
  induction calls with
  | nil => simp at htake
  | cons c cs ih =>
    have hcs : ∀ c ∈ cs, c.isShutdown = false := fun c hc => hcalls c (List.mem_cons_of_mem _ hc)
    cases c with
    | Take ctx =>
      obtain ⟨h1, h2, h3, h4⟩ := take_of_fresh env x w ctx honce hdb herr
      have hs : step env x w (.Take ctx)
          = (takeResultOf (env.sqlOpen w.opens.length x.driverName x.DSN),
              (x.Take env w ctx).2.1, (x.Take env w ctx).2.2) := by
        simp [step, h4]
      rw [run_cons, hs]
      simp only
      rw [run_settled env cs _ _ h2 hcs]
      simp [h1, h2, h3, Call.isTake]
    | Return ctx db =>
      have htake2 : ∃ c ∈ cs, c.isTake = true := by
        obtain ⟨c, hc, ht⟩ := htake
        rcases List.mem_cons.mp hc with rfl | hc
        · simp [Call.isTake] at ht
        · exact ⟨c, hc, ht⟩
      obtain ⟨h1, h2, h3, h4⟩ := ih hcs htake2
      simp only [run_cons, step_return]
      refine ⟨h1, ?_, h3, h4⟩
      simp [h2, Call.isTake]
    | Shutdown ctx =>
      have := hcalls (.Shutdown ctx) (List.mem_cons_self _ _)
      simp [Call.isShutdown] at this

/-- C1: on a manager built by `NewDsnConnectionManager d s`, in a sequential run of `Take`
and `Return` calls with at least one `Take`, `sql.Open` is invoked exactly once, with
arguments `(d, s)`, and nothing is closed; every `Take` of the run gives back that one
invocation's outcome (the handle and a nil error, or a nil handle and the error) and every
`Return` gives back nil; and the invocation is made by the first `Take`: the calls before
it leave the world untouched, and the world after it is the world after the whole run. -/
theorem take_opens_exactly_once (env : SqlEnv) (d s : String) (w : World) (calls : List Call)
    (hcalls : ∀ c ∈ calls, c.isShutdown = false) (htake : ∃ c ∈ calls, c.isTake = true) :
    (run env calls (NewDsnConnectionManager d s) w).2.2
        = { w with opens := w.opens ++ [(d, s)] }
      ∧ (run env calls (NewDsnConnectionManager d s) w).1 = calls.map (fun c =>
          if c.isTake then takeResultOf (env.sqlOpen w.opens.length d s)
          else Outcome.returned none)
      ∧ (∀ before ctx after, calls = before ++ Call.Take ctx :: after →
          (∀ c ∈ before, c.isTake = false) →
          (run env before (NewDsnConnectionManager d s) w).2.2 = w
            ∧ (run env (before ++ [Call.Take ctx]) (NewDsnConnectionManager d s) w).2.2
                = (run env calls (NewDsnConnectionManager d s) w).2.2) := by
  obtain ⟨h1, h2, _, _⟩ :=
    run_fresh_take env calls (NewDsnConnectionManager d s) w rfl rfl rfl hcalls htake
  refine ⟨h1, h2, ?_⟩
  intro before ctx after hsplit hno
  have hb : ∀ c ∈ before, c.isShutdown = false := fun c hc =>
    hcalls c (by rw [hsplit]; exact List.mem_append_left _ hc)
  constructor
  · rw [run_without_take env before _ w hb hno]
  · have hb2 : ∀ c ∈ before ++ [Call.Take ctx], c.isShutdown = false := by
      intro c hc
      rcases List.mem_append.mp hc with hc | hc
      · exact hb c hc
      · rw [List.mem_singleton.mp hc]; rfl
    have ht2 : ∃ c ∈ before ++ [Call.Take ctx], c.isTake = true :=
      ⟨Call.Take ctx, List.mem_append_right _ (List.mem_singleton_self _), rfl⟩
    rw [(run_fresh_take env _ (NewDsnConnectionManager d s) w rfl rfl rfl hb2 ht2).1, h1]

/-- Witness for C1: `Return`, `Take`, `Return`, `Take` on a manager whose open fails. -/
theorem take_opens_exactly_once_witness :
    (run SqlEnv.demo
        [Call.Return Context.background none, Call.Take Context.background,
          Call.Return Context.background none, Call.Take Context.background]
        (NewDsnConnectionManager "nosuchdriver" "dsn") World.fresh).2.2.opens
        = [("nosuchdriver", "dsn")]
      ∧ (run SqlEnv.demo
        [Call.Return Context.background none, Call.Take Context.background,
          Call.Return Context.background none, Call.Take Context.background]
        (NewDsnConnectionManager "nosuchdriver" "dsn") World.fresh).1
        = [Outcome.returned none, Outcome.took none (some ⟨"sql: unknown driver nosuchdriver"⟩),
            Outcome.returned none, Outcome.took none (some ⟨"sql: unknown driver nosuchdriver"⟩)] :=
  ⟨congrArg World.opens (take_opens_exactly_once SqlEnv.demo "nosuchdriver" "dsn" World.fresh
      [Call.Return Context.background none, Call.Take Context.background,
        Call.Return Context.background none, Call.Take Context.background]
      (by decide) (by decide)).1,
    (take_opens_exactly_once SqlEnv.demo "nosuchdriver" "dsn" World.fresh
      [Call.Return Context.background none, Call.Take Context.background,
        Call.Return Context.background none, Call.Take Context.background]
      (by decide) (by decide)).2.1.trans (by decide)⟩

/-! ## Repeated `Shutdown` -/

theorem shutdown_on_open_handle (env : SqlEnv) (x : DsnConnectionManager) (w : World)
    (ctx : Context) (c : DB) (hdb : x.db = some c) (herr : x.err = none)
    (hopen : c ∉ w.released) :
    x.Shutdown env w ctx = (env.closeOpen c, x,
      { w with closeCalls := w.closeCalls ++ [c], released := w.released ++ [c] }) := by
  simp [DsnConnectionManager.Shutdown, hdb, herr, DB.Close, hopen]

theorem shutdown_on_closed_handle (env : SqlEnv) (x : DsnConnectionManager) (w : World)
    (ctx : Context) (c : DB) (hdb : x.db = some c) (herr : x.err = none)
    (hclosed : c ∈ w.released) :
    x.Shutdown env w ctx = (env.closeClosed c, x,
      { w with closeCalls := w.closeCalls ++ [c] }) := by
  simp [DsnConnectionManager.Shutdown, hdb, herr, DB.Close, hclosed]

theorem run_shutdowns_on_closed_handle (env : SqlEnv) (ctxs : List Context)
    (x : DsnConnectionManager) (w : World) (c : DB) (hdb : x.db = some c)
    (herr : x.err = none) (hclosed : c ∈ w.released) :
    run env (ctxs.map Call.Shutdown) x w =
      (List.replicate ctxs.length (Outcome.shutDown (env.closeClosed c)), x,
        { w with closeCalls := w.closeCalls ++ List.replicate ctxs.length c }) := by
  induction ctxs generalizing w with
  | nil => simp [run_nil]
  | cons ctx rest ih =>
    have hs : step env x w (.Shutdown ctx) = (.shutDown (env.closeClosed c), x,
        { w with closeCalls := w.closeCalls ++ [c] }) := by
      simp [step, shutdown_on_closed_handle env x w ctx c hdb herr hclosed]
    rw [List.map_cons, run_cons, hs]
    simp only
    rw [ih ⟨w.opens, w.closeCalls ++ [c], w.released⟩ hclosed]
    simp [List.replicate_succ]

/-- C3: on a manager that holds a connection `c` from a successful `Take` (a connection, no
cached error, the handle still open), `k ≥ 1` `Shutdown` calls in sequence release `c`
exactly once. The first `Shutdown` performs the close and returns what closing an open
handle returns; each later `Shutdown` calls `c.Close()` again on the handle that is closed
by then, which releases nothing and returns the handle's already-closed result. Nothing is
opened and the manager is unchanged. -/
theorem shutdown_releases_exactly_once (env : SqlEnv) (x : DsnConnectionManager) (w : World)
    (c : DB) (ctxs : List Context) (hk : 1 ≤ ctxs.length) (hdb : x.db = some c)
    (herr : x.err = none) (hopen : c ∉ w.released) :
    (run env (ctxs.map Call.Shutdown) x w).2.2.released = w.released ++ [c]
      ∧ (run env (ctxs.map Call.Shutdown) x w).2.2.released.count c = 1
      ∧ (run env ((ctxs.take 1).map Call.Shutdown) x w).2.2.released = w.released ++ [c]
      ∧ (run env (ctxs.map Call.Shutdown) x w).1
          = Outcome.shutDown (env.closeOpen c)
            :: List.replicate (ctxs.length - 1) (Outcome.shutDown (env.closeClosed c))
      ∧ (run env (ctxs.map Call.Shutdown) x w).2.2.closeCalls
          = w.closeCalls ++ List.replicate ctxs.length c
      ∧ (run env (ctxs.map Call.Shutdown) x w).2.2.opens = w.opens
      ∧ (run env (ctxs.map Call.Shutdown) x w).2.1 = x := by
  cases ctxs with
  | nil => simp at hk
  | cons ctx rest =>
    have hs : step env x w (.Shutdown ctx) = (.shutDown (env.closeOpen c), x,
        { w with closeCalls := w.closeCalls ++ [c], released := w.released ++ [c] }) := by
      simp [step, shutdown_on_open_handle env x w ctx c hdb herr hopen]
    have hmem : c ∈ (⟨w.opens, w.closeCalls ++ [c], w.released ++ [c]⟩ : World).released := by
      simp
    have hrun := run_shutdowns_on_closed_handle env rest x _ c hdb herr hmem
    simp only [List.map_cons, run_cons, hs, hrun, List.take_succ_cons, List.take_zero,
      List.map_nil, run_nil]
    refine ⟨trivial, ?_, trivial, ?_, ?_, trivial, trivial⟩
    · simp [List.count_append, List.count_eq_zero_of_not_mem hopen]
    · simp
    · simp [List.replicate_succ]

/-- Witness for C3: a successful `Take` in a fresh world, then three `Shutdown` calls. -/
theorem shutdown_releases_exactly_once_witness :
    (run SqlEnv.demo
        [Call.Take Context.background, Call.Shutdown Context.background,
          Call.Shutdown Context.background, Call.Shutdown Context.background]
        (NewDsnConnectionManager "mysql" "dsn") World.fresh).2.2.released = [⟨0⟩] :=
  (shutdown_releases_exactly_once SqlEnv.demo
    ((NewDsnConnectionManager "mysql" "dsn").Take SqlEnv.demo World.fresh Context.background).2.1
    ((NewDsnConnectionManager "mysql" "dsn").Take SqlEnv.demo World.fresh Context.background).2.2
    ⟨0⟩ [Context.background, Context.background, Context.background]
    (by decide) rfl rfl (by decide)).1

/-! ## The context argument -/

theorem take_consistent (env : SqlEnv) (x : DsnConnectionManager) (w : World) (ctx : Context)
    (hx : x.Consistent = true) :
    (x.Take env w ctx).2.1.Consistent = true ∧ (x.Take env w ctx).2.1.once = true := by
  cases honce : x.once with
  | true => simp [take_of_once env x w ctx honce, hx, honce]
  | false =>
    have hdb : x.db = none := by
      simpa [Option.isNone_iff_eq_none] using
        (by simpa [DsnConnectionManager.Consistent, honce] using hx : _ ∧ _).1
    have herr : x.err = none := by
      simpa [Option.isNone_iff_eq_none] using
        (by simpa [DsnConnectionManager.Consistent, honce] using hx : _ ∧ _).2
    simp only [DsnConnectionManager.Take, DsnConnectionManager.onceDo, honce,
      DsnConnectionManager.takeInit, sqlOpen]
    cases env.sqlOpen w.opens.length x.driverName x.DSN with
    | error e => simp [DsnConnectionManager.Consistent, hdb]
    | ok db => simp [DsnConnectionManager.Consistent, herr]

theorem shutdown_keeps_manager (env : SqlEnv) (x : DsnConnectionManager) (w : World)
    (ctx : Context) : (x.Shutdown env w ctx).2.1 = x := by
  unfold DsnConnectionManager.Shutdown
  cases x.err <;> cases x.db <;> rfl

theorem run_consistent (env : SqlEnv) (calls : List Call) (x : DsnConnectionManager)
    (w : World) (hx : x.Consistent = true) : (run env calls x w).2.1.Consistent = true := by
  induction calls generalizing x w with
  | nil => exact hx
  | cons c cs ih =>
    rw [run_cons]
    apply ih
    cases c with
    | Take ctx => exact (take_consistent env x w ctx hx).1
    | Return ctx db => exact hx
    | Shutdown ctx =>
      show (x.Shutdown env w ctx).2.1.Consistent = true
      rw [shutdown_keeps_manager]; exact hx

/-- C7 as stated fails: called with a context that is already cancelled, `Return` and
`Shutdown` on a fresh manager return nil and `Take` returns the opened handle with a nil
error; none of the three results is a cancellation-kind error. -/
theorem canceled_context_is_not_reported :
    Context.canceled.err = some ⟨"context canceled"⟩
      ∧ isCancellationResult
          ((NewDsnConnectionManager "mysql" "dsn").Take SqlEnv.demo World.fresh
            Context.canceled).1.2 = false
      ∧ ((NewDsnConnectionManager "mysql" "dsn").Take SqlEnv.demo World.fresh
            Context.canceled).1 = (some ⟨0⟩, none)
      ∧ isCancellationResult
          ((NewDsnConnectionManager "mysql" "dsn").Return World.fresh Context.canceled none).1
          = false
      ∧ isCancellationResult
          ((NewDsnConnectionManager "mysql" "dsn").Shutdown SqlEnv.demo World.fresh
            Context.canceled).1 = false := by
  decide

/-- C7 as amended: `Take`, `Return` and `Shutdown` do not look at their context, so each
gives the same result and leaves the same manager and world whether the context is
cancelled or live; and each leaves a consistent manager consistent, never half-way through
initialization: after `Take` the once flag is set and exactly one of connection and error
is recorded, a handle that `sql.Open` produced is the recorded connection, `Return` and
`Shutdown` leave the manager as it was, and every state reached from a freshly constructed
manager is consistent. -/
theorem context_is_ignored_and_state_stays_consistent (env : SqlEnv)
    (x : DsnConnectionManager) (w : World) (ctx ctx2 : Context) (c : Option DB)
    (hx : x.Consistent = true) :
    x.Take env w ctx = x.Take env w ctx2
      ∧ x.Return w ctx c = x.Return w ctx2 c
      ∧ x.Shutdown env w ctx = x.Shutdown env w ctx2
      ∧ (x.Take env w ctx).2.1.Consistent = true
      ∧ (x.Take env w ctx).2.1.once = true
      ∧ (∀ db, x.once = false → env.sqlOpen w.opens.length x.driverName x.DSN = .ok db →
          (x.Take env w ctx).2.1.db = some db ∧ (x.Take env w ctx).1 = (some db, none))
      ∧ (x.Return w ctx c).2.1 = x
      ∧ (x.Shutdown env w ctx).2.1 = x
      ∧ (∀ d s calls w0, (run env calls (NewDsnConnectionManager d s) w0).2.1.Consistent
          = true) := by
  refine ⟨rfl, rfl, rfl, (take_consistent env x w ctx hx).1, (take_consistent env x w ctx hx).2,
    ?_, rfl, shutdown_keeps_manager env x w ctx, ?_⟩
  · intro db honce hopen
    have herr : x.err = none := by
      simpa [Option.isNone_iff_eq_none] using
        (by simpa [DsnConnectionManager.Consistent, honce] using hx : _ ∧ _).2
    simp [DsnConnectionManager.Take, DsnConnectionManager.onceDo, honce,
      DsnConnectionManager.takeInit, sqlOpen, hopen, herr]
  · intro d s calls w0
    exact run_consistent env calls _ w0 rfl

/-- Witness for the amended C7: a fresh manager, a cancelled and a live context. -/
theorem context_is_ignored_and_state_stays_consistent_witness :
    (NewDsnConnectionManager "mysql" "dsn").Take SqlEnv.demo World.fresh Context.canceled
      = (NewDsnConnectionManager "mysql" "dsn").Take SqlEnv.demo World.fresh
          Context.background :=
  (context_is_ignored_and_state_stays_consistent SqlEnv.demo
    (NewDsnConnectionManager "mysql" "dsn") World.fresh Context.canceled Context.background
    none rfl).1

/-! ## The row iterator -/

theorem next_of_false {σ L : Type} (drv : RowsDriver σ L) (x : SqlRowsIterator σ)
    (h : (drv.next x.rows.cursor).1 = false) :
    x.Next drv = (false,
      { rows := { cursor := (drv.close (drv.next x.rows.cursor).2).2,
                  closeCalls := x.rows.closeCalls + 1 } }) := by
  simp [SqlRowsIterator.Next, SqlRows.Next, SqlRows.Close, h]

theorem next_of_true {σ L : Type} (drv : RowsDriver σ L) (x : SqlRowsIterator σ)
    (h : (drv.next x.rows.cursor).1 = true) :
    x.Next drv = (true,
      { rows := { cursor := (drv.next x.rows.cursor).2, closeCalls := x.rows.closeCalls } }) := by
  simp [SqlRowsIterator.Next, SqlRows.Next, h]

theorem driveUntilFalse_closed {σ L : Type} (drv : RowsDriver σ L) (hclose : drv.CloseCloses)
    (fuel : Nat) (x y : SqlRowsIterator σ) (h : driveUntilFalse drv fuel x = some y) :
    y.rows.closed drv = true := by
  induction fuel generalizing x with
  | zero => simp [driveUntilFalse] at h
  | succ n ih =>
    cases hn : (drv.next x.rows.cursor).1 with
    | true =>
      rw [driveUntilFalse, next_of_true drv x hn] at h
      exact ih _ h
    | false =>
      rw [driveUntilFalse, next_of_false drv x hn] at h
      simp only [Bool.false_eq_true, if_false, Option.some.injEq] at h
      rw [← h]
      exact hclose _

theorem driveUntilFalse_list {R L : Type}
    (decode : R → Option L → Option L × Option GoError) (rows : List R) (cur : Option R)
    (k : Nat) :
    driveUntilFalse (listDriver decode) (rows.length + 1)
        { rows := { cursor := { pending := rows, current := cur, isClosed := false },
                    closeCalls := k } }
      = some { rows := { cursor := { pending := [], current := none, isClosed := true },
                         closeCalls := k + 1 } } := by
  induction rows generalizing cur with
  | nil =>
    rw [List.length_nil, driveUntilFalse, next_of_false _ _ (by simp [listDriver])]
    simp [listDriver]
  | cons r rest ih =>
    rw [List.length_cons, driveUntilFalse, next_of_true _ _ (by simp [listDriver])]
    simpa [listDriver] using ih (some r)

theorem listDriver_closeCloses {R L : Type}
    (decode : R → Option L → Option L × Option GoError) :
    (listDriver decode).CloseCloses := fun _ => rfl

/-- C4: for every cursor whose `Close` closes it, and every cursor state wrapped by
`NewSqlRowsIterator`, `Next` returns exactly what the cursor's own advance reports. When it
returns false, the iterator holds the rows exactly as `rows.Close()` left them after the
advance: the cursor's own `close` was applied to the advanced cursor, once, so the cursor is
closed when `Next` returns. When it returns true, the iterator holds the rows exactly as the
advance left them and has sent no `Close`. So whenever driving the iterator ends with a
`Next` that returned false, the cursor is closed without any close by the caller, and on a
result set of `n` rows held in memory that happens within `n + 1` calls, leaving the
in-memory cursor itself closed. -/
theorem next_reports_advance_and_closes_on_false {σ L R : Type} (drv : RowsDriver σ L)
    (rows : SqlRows σ) (decode : R → Option L → Option L × Option GoError)
    (resultSet : List R) (hclose : drv.CloseCloses) :
    ((NewSqlRowsIterator rows).Next drv).1 = (drv.next rows.cursor).1
      ∧ (((NewSqlRowsIterator rows).Next drv).1 = false →
          ((NewSqlRowsIterator rows).Next drv).2.rows = ((rows.Next drv).2.Close drv).2
            ∧ ((NewSqlRowsIterator rows).Next drv).2.rows.cursor
                = (drv.close (drv.next rows.cursor).2).2
            ∧ ((NewSqlRowsIterator rows).Next drv).2.rows.closeCalls = rows.closeCalls + 1
            ∧ ((NewSqlRowsIterator rows).Next drv).2.rows.closed drv = true)
      ∧ (((NewSqlRowsIterator rows).Next drv).1 = true →
          ((NewSqlRowsIterator rows).Next drv).2.rows = (rows.Next drv).2
            ∧ ((NewSqlRowsIterator rows).Next drv).2.rows.cursor = (drv.next rows.cursor).2
            ∧ ((NewSqlRowsIterator rows).Next drv).2.rows.closeCalls = rows.closeCalls)
      ∧ (∀ fuel y, driveUntilFalse drv fuel (NewSqlRowsIterator rows) = some y →
          y.rows.closed drv = true)
      ∧ (∃ y, driveUntilFalse (listDriver decode) (resultSet.length + 1)
            (NewSqlRowsIterator { cursor := ListCursor.ofRows resultSet, closeCalls := 0 })
            = some y ∧ y.rows.cursor.isClosed = true ∧ y.rows.closeCalls = 1) := by
  have hfst : ((NewSqlRowsIterator rows).Next drv).1 = (drv.next rows.cursor).1 := by
    simp only [SqlRowsIterator.Next, SqlRows.Next, NewSqlRowsIterator]
    split <;> rfl
  refine ⟨hfst, ?_, ?_, ?_, ?_⟩
  · intro h
    rw [hfst] at h
    rw [next_of_false drv (NewSqlRowsIterator rows) h]
    exact ⟨rfl, rfl, rfl, hclose _⟩
  · intro h
    rw [hfst] at h
    rw [next_of_true drv (NewSqlRowsIterator rows) h]
    exact ⟨rfl, rfl, rfl⟩
  · intro fuel y h
    exact driveUntilFalse_closed drv hclose fuel _ y h
  · exact ⟨_, driveUntilFalse_list decode resultSet none 0, rfl, rfl⟩

/-- Witness for C4: on an empty in-memory result set `Next` returns false and leaves the
cursor itself closed; on a one-row result set it returns true and leaves it open, on the
row. -/
theorem next_reports_advance_and_closes_on_false_witness :
    ((NewSqlRowsIterator { cursor := ListCursor.ofRows ([] : List Nat), closeCalls := 0 }).Next
        (listDriver decodeDemo)).2.rows
        = { cursor := { pending := [], current := none, isClosed := true }, closeCalls := 1 }
      ∧ ((NewSqlRowsIterator { cursor := ListCursor.ofRows [5], closeCalls := 0 }).Next
        (listDriver decodeDemo)).2.rows
        = { cursor := { pending := [], current := some 5, isClosed := false },
            closeCalls := 0 } :=
  ⟨((next_reports_advance_and_closes_on_false (listDriver decodeDemo)
      { cursor := ListCursor.ofRows ([] : List Nat), closeCalls := 0 } decodeDemo []
      (listDriver_closeCloses decodeDemo)).2.1 rfl).1,
    ((next_reports_advance_and_closes_on_false (listDriver decodeDemo)
      { cursor := ListCursor.ofRows [5], closeCalls := 0 } decodeDemo []
      (listDriver_closeCloses decodeDemo)).2.2.1 rfl).1⟩

theorem list_next_cons {R L : Type} (decode : R → Option L → Option L × Option GoError)
    (r : R) (rest : List R) (cur : Option R) (k : Nat) :
    SqlRowsIterator.Next (listDriver decode)
        { rows := { cursor := { pending := r :: rest, current := cur, isClosed := false },
                    closeCalls := k } }
      = (true, { rows := { cursor := { pending := rest, current := some r, isClosed := false },
                           closeCalls := k } }) := by
  rw [next_of_true _ _ (by simp [listDriver])]
  simp [listDriver]

theorem list_value_current {R L : Type} [Inhabited L]
    (decode : R → Option L → Option L × Option GoError) (r : R) (rest : List R) (b : Bool)
    (k : Nat) :
    SqlRowsIterator.Value (listDriver decode)
        { rows := { cursor := { pending := rest, current := some r, isClosed := b },
                    closeCalls := k } }
      = ((decode r (some default)).1,
          { rows := { cursor := { pending := rest, current := some r, isClosed := b },
                      closeCalls := k } }) := by
  simp [SqlRowsIterator.Value, SqlRows.Scan, listDriver]

/-- C5, the code at the failing input: a result set of two rows of two columns each. Both
`Next` calls return true and the third returns false and leaves the cursor itself closed,
by one `Close`, as the claim says. But each `Value` gives back a pointer to the zero-value
record and not the record of its row, whether or not `*LockInformation` has a `Scan`
method: the one destination `&r` fails the destination count of `rows.Scan` and the error
is dropped. On one-column rows of a record type without a `Scan` method the two `Value`
calls give back the zero-value record as well. -/
theorem value_gives_zero_record_for_every_row {L : Type} [Inhabited L]
    (scanner : Option (DriverValue → L × Option GoError)) :
    nextValuePairs (listDriver (scanIntoRecordPointer scanner)) 2
        (NewSqlRowsIterator
          { cursor := ListCursor.ofRows
              [[DriverValue.text "owner-a", DriverValue.int 1],
                [DriverValue.text "owner-b", DriverValue.int 2]],
            closeCalls := 0 })
        = ([(true, some default), (true, some default)],
            { rows := { cursor := { pending := [],
                                    current := some [DriverValue.text "owner-b", DriverValue.int 2],
                                    isClosed := false },
                        closeCalls := 0 } })
      ∧ SqlRowsIterator.Next (listDriver (scanIntoRecordPointer scanner))
          { rows := { cursor := { pending := [],
                                  current := some [DriverValue.text "owner-b", DriverValue.int 2],
                                  isClosed := false },
                      closeCalls := 0 } }
        = (false, { rows := { cursor := { pending := [], current := none, isClosed := true },
                              closeCalls := 1 } })
      ∧ (nextValuePairs (listDriver (scanIntoRecordPointer (none : Option (DriverValue → L × Option GoError)))) 2
          (NewSqlRowsIterator
            { cursor := ListCursor.ofRows [[DriverValue.int 5], [DriverValue.int 9]],
              closeCalls := 0 })).1
        = [(true, some default), (true, some default)] := by
  refine ⟨?_, ?_, ?_⟩
  · simp [nextValuePairs, NewSqlRowsIterator, ListCursor.ofRows, list_next_cons,
      list_value_current, scanIntoRecordPointer]
  · rw [next_of_false _ _ (by simp [listDriver])]
    simp [listDriver]
  · simp [nextValuePairs, NewSqlRowsIterator, ListCursor.ofRows, list_next_cons,
      list_value_current, scanIntoRecordPointer]

/-- C6 as stated fails: on a one-row result set whose row does not decode, `Scan` inside
`Value` returns the decode error, and `Value` gives back a pointer to the zero-value
record, exactly what it gives back on a row that decodes to the zero-value record without
error. -/
theorem value_masks_decode_error :
    SqlRowsIterator.valueScanError (L := Nat) (listDriver decodeDemo)
        ((NewSqlRowsIterator { cursor := ListCursor.ofRows [0], closeCalls := 0 }).Next
          (listDriver (L := Nat) decodeDemo)).2
        = some ⟨"sql: Scan error on column index 0"⟩
      ∧ (((NewSqlRowsIterator { cursor := ListCursor.ofRows [0], closeCalls := 0 }).Next
          (listDriver (L := Nat) decodeDemo)).2.Value (listDriver decodeDemo)).1
        = some (default : Nat)
      ∧ (((NewSqlRowsIterator { cursor := ListCursor.ofRows [0], closeCalls := 0 }).Next
          (listDriver (L := Nat) decodeDemo)).2.Value (listDriver decodeDemo)).1
        = (((NewSqlRowsIterator { cursor := ListCursor.ofRows [0], closeCalls := 0 }).Next
          (listDriver (L := Nat) (fun _ _ => (some default, none)))).2.Value
            (listDriver (fun _ _ => (some default, none)))).1 := by
  decide

/-- C6 as amended: when decoding the current row fails with error `e`, `Value` drops `e`.
Of the pair that `Scan` produced, destination and `e`, it gives back only the destination
pointer as the failed `Scan` left it (the zero-value record when `Scan` left the
destination alone), and that is exactly what it gives back, with the same cursor
afterwards, on a cursor whose `Scan` leaves the same destination and reports no error: the
failure cannot be seen in what `Value` gives back. -/
theorem value_drops_decode_error {σ L : Type} [Inhabited L] (drv drvOk : RowsDriver σ L)
    (x : SqlRowsIterator σ) (e : GoError)
    (hfail : x.valueScanError drv = some e)
    (hsame : drvOk.scan x.rows.cursor (some default)
      = (((drv.scan x.rows.cursor (some default)).1.1, none),
          (drv.scan x.rows.cursor (some default)).2)) :
    (x.rows.Scan drv (some default)).1 = ((x.Value drv).1, some e)
      ∧ ((drv.scan x.rows.cursor (some default)).1.1 = some default →
          (x.Value drv).1 = some default)
      ∧ x.valueScanError drvOk = none
      ∧ x.Value drv = x.Value drvOk := by
  refine ⟨?_, fun h => h, ?_, ?_⟩
  · exact Prod.ext rfl hfail
  · simp [SqlRowsIterator.valueScanError, SqlRows.Scan, hsame]
  · simp [SqlRowsIterator.Value, SqlRows.Scan, hsame]

/-- Witness for the amended C6: the row `0`, which does not decode, against a decoder that
succeeds with the zero-value record. -/
theorem value_drops_decode_error_witness :
    ((NewSqlRowsIterator { cursor := ListCursor.ofRows [0], closeCalls := 0 }).Next
        (listDriver (L := Nat) decodeDemo)).2.Value (listDriver decodeDemo)
      = ((NewSqlRowsIterator { cursor := ListCursor.ofRows [0], closeCalls := 0 }).Next
        (listDriver (L := Nat) decodeDemo)).2.Value
          (listDriver (fun _ _ => (some default, none))) :=
  (value_drops_decode_error (listDriver decodeDemo)
    (listDriver (fun _ _ => (some default, none)))
    ((NewSqlRowsIterator { cursor := ListCursor.ofRows [0], closeCalls := 0 }).Next
        (listDriver (L := Nat) decodeDemo)).2
    ⟨"sql: Scan error on column index 0"⟩ rfl rfl).2.2.2

end Storage
